import Mathlib

/-
Verification development for the portfolio-optimization core of this
repository (src/src/optimizer.py, src/src/data_fetcher.py, src/src/main.py).

The Python numeric code is shallowly embedded over ℚ (exact rationals stand
in for IEEE floats); the square root and the Sharpe-ratio division, which the
source computes on floats, appear only inside Prop-level characterizations
over ℝ.  The external convex solves performed by the pypfopt/cvxpy library
are abstracted as oracle parameters; everything the repository's own code
does around those calls is transcribed directly from the source.
-/

/-- Asset identifier (a pandas column label / dict key in the source). -/
abbrev Ticker := String

/-- A Python dict of weights `{ticker: weight}`, as an association list in
column order (pandas preserves insertion order and keys are unique). -/
abbrev WeightsDict := List (Ticker × ℚ)

/-- `np.dot` of two equal-length 1-d arrays (used at optimizer.py lines 141–142). -/
def dotQ (xs ys : List ℚ) : ℚ :=
  (List.zipWith (· * ·) xs ys).sum

/-- `np.dot(S, v)` for a matrix `S` given as a list of rows (optimizer.py line 142). -/
def matVec (S : List (List ℚ)) (v : List ℚ) : List ℚ :=
  S.map (fun row => dotQ row v)

/-- optimizer.py line 138:
`weights_array = np.array([weights.get(col, 0) for col in prices.columns])` —
a missing column looks up to the default `0`. -/
def weights_array (cols : List Ticker) (w : WeightsDict) : List ℚ :=
  cols.map (fun c => (w.lookup c).getD 0)

/-- optimizer.py line 141: `portfolio_return = np.dot(weights_array, mu)`.
`mu` is the pypfopt expected-return vector aligned with `prices.columns`;
it enters here as an explicit parameter. -/
def portfolio_return (cols : List Ticker) (mu : List ℚ) (w : WeightsDict) : ℚ :=
  dotQ (weights_array cols w) mu

/-- optimizer.py line 142 under the square root:
`np.dot(weights_array, np.dot(S, weights_array))` — the quadratic form wᵀSw. -/
def portfolio_variance (cols : List Ticker) (S : List (List ℚ)) (w : WeightsDict) : ℚ :=
  dotQ (weights_array cols w) (matVec S (weights_array cols w))

/-- optimizer.py lines 138–145 (`get_portfolio_performance` body after the
estimation calls): the returned triple `(portfolio_return, portfolio_vol,
sharpe)` with `portfolio_vol = np.sqrt(wᵀSw)` and
`sharpe = (portfolio_return - risk_free_rate) / portfolio_vol`.
The division at line 143 is written with no guard on the divisor; NumPy
float division by a zero divisor produces no finite real number (inf/nan),
which this characterization records as `none` for the Sharpe component. -/
def get_portfolio_performance (cols : List Ticker) (mu : List ℚ) (S : List (List ℚ))
    (w : WeightsDict) (risk_free_rate : ℚ) (r v : ℝ) (s : Option ℝ) : Prop :=
  r = (portfolio_return cols mu w : ℝ) ∧
  v = Real.sqrt (portfolio_variance cols S w : ℝ) ∧
  (v = 0 → s = none) ∧
  (v ≠ 0 → s = some ((r - (risk_free_rate : ℝ)) / v))

/-- Round-half-to-even to an integer, the rounding mode of `np.round`. -/
def round_half_even (q : ℚ) : ℤ :=
  if Int.fract q < 1/2 then ⌊q⌋
  else if 1/2 < Int.fract q then ⌊q⌋ + 1
  else if Even ⌊q⌋ then ⌊q⌋ else ⌊q⌋ + 1

/-- `np.round(v, 5)`: round to 5 decimal places (pypfopt `clean_weights`
default `rounding=5`). -/
def np_round5 (v : ℚ) : ℚ :=
  (round_half_even (v * 100000) : ℚ) / 100000

/-- pypfopt `clean_weights` step 1 with the default `cutoff=1e-4`:
`clean_weights[np.abs(clean_weights) < cutoff] = 0`. -/
def cutoff_small (v : ℚ) : ℚ :=
  if |v| < 1/10000 then 0 else v

/-- `ef.clean_weights()` at optimizer.py line 104 with pypfopt defaults
(`cutoff=1e-4`, `rounding=5`): zero every entry of absolute value below the
cutoff, then round every entry to 5 decimal places; keys and order are kept. -/
def clean_weights (w : WeightsDict) : WeightsDict :=
  w.map (fun kv => (kv.1, np_round5 (cutoff_small kv.2)))

/-- optimizer.py lines 104 and 110: the cleaned dict is then filtered by
`{k: v for k, v in cleaned_weights.items() if v > 0.0001}` — entries not
strictly above the threshold are REMOVED from the dict (not zeroed), and no
renormalization follows.  This is the post-processing every weight vector
returned by `get_max_sharpe_allocation` goes through. -/
def max_sharpe_cleaned (raw : WeightsDict) : WeightsDict :=
  (clean_weights raw).filter (fun kv => decide ((1:ℚ)/10000 < kv.2))

/-- Sum of the weights held in the dict. -/
def weights_sum (w : WeightsDict) : ℚ :=
  (w.map Prod.snd).sum

/-- The Python exception classes relevant to src/src/optimizer.py.
`pypfoptOptimizationError` is `pypfopt.exceptions.OptimizationError`
(imported at line 7, a direct subclass of `Exception`, not of `ValueError`);
`localOptimizationError` is the class `OptimizationError(Exception)` defined
at line 10, which rebinds — shadows — the module-level name just imported.
These are distinct classes, neither a subclass of the other. -/
inductive PyExc
  | pypfoptOptimizationError
  | valueError
  | localOptimizationError
  | otherException
deriving DecidableEq

/-- The classes matched by `except (OptimizationError, ValueError)` at
optimizer.py line 63.  By Python name resolution, `OptimizationError` there
denotes the line-10 local class (the line-7 import having been shadowed), so
the clause matches the local class and `ValueError` — and does NOT match the
library's `pypfopt.exceptions.OptimizationError`. -/
def frontier_except_matches : PyExc → Bool
  | .localOptimizationError => true
  | .valueError => true
  | _ => false

/-- Outcome of one `EfficientFrontier(mu, S); efficient_return(target);
portfolio_performance()` solve: the `(ret, vol)` pair, or a raised exception.
The solve itself happens inside the external pypfopt/cvxpy library, so it is
abstracted as an oracle from the target return to an outcome.  pypfopt raises
`ValueError` for a target failing its range checks and its own
`OptimizationError` when the cvxpy solve terminates without an optimal status
(e.g. status `infeasible`). -/
abbrev SolveOutcome := Except PyExc (ℚ × ℚ)

/-- optimizer.py lines 56–65: the frontier point loop of
`calculate_efficient_frontier`.  For each target in order it runs the solve;
on success it appends `(ret, vol)` to the accumulating lists; on a raised
exception it continues with the next target if the `except` clause at line 63
matches the exception's class, and otherwise the exception propagates out of
the whole function (discarding the partial lists). -/
def frontier_point_loop (solve : ℚ → SolveOutcome) : List ℚ → Except PyExc (List (ℚ × ℚ))
  | [] => .ok []
  | t :: ts =>
    match solve t with
    | .ok p => (frontier_point_loop solve ts).map (fun rest => p :: rest)
    | .error e =>
      if frontier_except_matches e then frontier_point_loop solve ts
      else .error e

/-- A concrete solve oracle: target 1 succeeds, target 2 raises the library's
`pypfopt.exceptions.OptimizationError` (an infeasible solve), target 3 would
succeed again. -/
def solve_with_infeasible : ℚ → SolveOutcome :=
  fun t =>
    if t = 1 then .ok (1/10, 1/5)
    else if t = 2 then .error .pypfoptOptimizationError
    else .ok (3/20, 3/10)

/-- A validated price frame as produced by the data fetcher: column labels
plus rows of prices.  Its internal structure is irrelevant to the allocation
wrapper, which hands it whole to the estimation and solver calls. -/
abbrev PriceFrame := List Ticker × List (List ℚ)

/-- optimizer.py lines 96–115 (`get_max_sharpe_allocation`): inside `try`,
estimate `mu`/`S` from the prices, run `ef.max_sharpe(risk_free_rate)`, clean
and threshold-filter the weights, and return them; any exception raised in
the block is converted to the local `OptimizationError`.  The estimation and
the max-Sharpe solve are pypfopt library calls — deterministic functions of
`(prices, risk_free_rate)` — abstracted as one oracle yielding either the
solver's raw weight dict or a raised exception. -/
def get_max_sharpe_allocation
    (solve : PriceFrame → ℚ → Except PyExc WeightsDict)
    (prices : PriceFrame) (risk_free_rate : ℚ) : Except PyExc WeightsDict :=
  match solve prices risk_free_rate with
  | .ok raw => .ok (max_sharpe_cleaned raw)
  | .error _ => .error .localOptimizationError

/-- The failure modes of the tail of `fetch_vn_stock_data`
(src/src/data_fetcher.py lines 111–117); both are raised as the module's
`DataFetchError`, distinguished here by their messages. -/
inductive FetchFailure
  | noValidPriceData
  | insufficientDataPoints
deriving DecidableEq

/-- One row of the combined price frame `pd.DataFrame(price_data)`:
one entry per ticker, `none` standing for a missing value (NaN). -/
abbrev RawRow := List (Option ℚ)

/-- `prices_df.dropna()` at data_fetcher.py line 109: keep exactly the rows
with no missing value. -/
def dropna (rows : List RawRow) : List RawRow :=
  rows.filter (fun r => r.all Option.isSome)

/-- data_fetcher.py lines 106–119: after combining the per-ticker series,
drop rows with any NaN; raise `DataFetchError("No valid price data …")` if
the result is empty; raise `DataFetchError("Insufficient data points …")` if
fewer than 30 rows remain; otherwise return the cleaned frame.  Every table
reaching the estimation calls downstream has therefore passed this guard. -/
def validate_price_rows (rows : List RawRow) : Except FetchFailure (List RawRow) :=
  let cleaned := dropna rows
  if cleaned.isEmpty then .error .noValidPriceData
  else if cleaned.length < 30 then .error .insufficientDataPoints
  else .ok cleaned

/-- The spec's error taxonomy for allocation configuration (§7): only the
`InvalidParameterError` case is needed here, plus a generic solver failure. -/
inductive AllocError
  | invalidParameter
  | solverFailure
deriving DecidableEq

/-- Modelled from the spec: `get_max_utility_allocation` is imported by
src/src/main.py (and called at its line 164) from `src.optimizer`, but no
definition of it exists in src/src/optimizer.py.  Spec §4.3.3 and §7: the
risk-aversion scalar λ must be > 0; λ ≤ 0 fails with `InvalidParameterError`
before any solve attempt; for λ > 0 the operation is the convex QP
(minimize ½λ·wᵀSw − wᵀμ over the simplex) run through the solver adapter,
abstracted here as an oracle. -/
def get_max_utility_allocation
    (solve : ℚ → ℚ → Except AllocError WeightsDict)
    (risk_aversion risk_free_rate : ℚ) : Except AllocError WeightsDict :=
  if risk_aversion ≤ 0 then .error .invalidParameter
  else solve risk_aversion risk_free_rate

/-- A feasible portfolio over `n` assets (spec §4.3, glossary "simplex
constraint"): non-negative weights summing to one. -/
def feasible (n : ℕ) (w : Fin n → ℚ) : Prop :=
  (∀ i, 0 ≤ w i) ∧ (∑ i, w i) = 1

/-- Expected return wᵀμ of a portfolio given as a function on indices. -/
def dot_fin (n : ℕ) (w mu : Fin n → ℚ) : ℚ :=
  ∑ i, w i * mu i

/-- Variance wᵀSw of a portfolio given as a function on indices. -/
def quad_fin (n : ℕ) (S : Fin n → Fin n → ℚ) (w : Fin n → ℚ) : ℚ :=
  ∑ i, ∑ j, w i * S i j * w j

/-- Spec §3 (`PerformanceMetrics`): the Sharpe ratio of the portfolio with
annualized return `r1` and variance `v1` is at most that of the portfolio
with return `r2` and variance `v2`, at risk-free rate `rf`;
Sharpe = (return − rf) / sqrt(variance). -/
def sharpe_le (rf r1 v1 r2 v2 : ℚ) : Prop :=
  ((r1 : ℝ) - (rf : ℝ)) / Real.sqrt (v1 : ℝ) ≤
    ((r2 : ℝ) - (rf : ℝ)) / Real.sqrt (v2 : ℝ)

/-- Modelled from the spec: the `ef.max_sharpe` solve is performed by the
external pypfopt/cvxpy library, not by code under src/.  Spec §4.2 (the
solver adapter returns the minimizing point) and §4.3.2 (the homogenized
max-Sharpe QP is exact) make it the exact maximizer of the Sharpe ratio over
the feasible simplex. -/
def is_max_sharpe (n : ℕ) (mu : Fin n → ℚ) (S : Fin n → Fin n → ℚ) (rf : ℚ)
    (wstar : Fin n → ℚ) : Prop :=
  feasible n wstar ∧
  ∀ w, feasible n w →
    sharpe_le rf (dot_fin n w mu) (quad_fin n S w)
      (dot_fin n wstar mu) (quad_fin n S wstar)

/-- Modelled from the spec: `generate_random_portfolios` is imported by
src/src/main.py (and called at its line 174) from `src.optimizer`, but no
definition of it exists in src/src/optimizer.py.  Spec §4.5: each draw is a
non-negative vector normalized by its total mass, so every sample lies in the
probability simplex. -/
def normalize_draw (n : ℕ) (x : Fin n → ℚ) : Fin n → ℚ :=
  fun i => x i / ∑ j, x j

/-- C4: every price table whose aligned (NaN-free) row count is below 30
fails the fetcher's validation with a `DataFetchError` instead of being
returned — so no `(mu, S)` pair is ever estimated from it; when the table is
non-empty the failure is specifically the 30-row-floor message of
data_fetcher.py lines 114–117. -/
theorem c4_estimation_row_floor (rows : List RawRow)
    (h : (dropna rows).length < 30) :
    (∀ out, validate_price_rows rows ≠ Except.ok out) ∧
    ((dropna rows).isEmpty = false →
      validate_price_rows rows = Except.error FetchFailure.insufficientDataPoints) := by
  constructor
  · intro out hok
    unfold validate_price_rows at hok
    by_cases he : (dropna rows).isEmpty <;> simp [he, h] at hok
  · intro he
    unfold validate_price_rows
    simp [he, h]

/-- Witness for C4 at a concrete 10-row, 2-asset price table. -/
theorem c4_estimation_row_floor_witness :
    (∀ out, validate_price_rows (List.replicate 10 [some (1:ℚ), some 2]) ≠ Except.ok out) ∧
    validate_price_rows (List.replicate 10 [some (1:ℚ), some 2]) =
      Except.error FetchFailure.insufficientDataPoints :=
  ⟨(c4_estimation_row_floor _ (by decide)).1,
   (c4_estimation_row_floor _ (by decide)).2 (by decide)⟩

/-- C5: for every solver oracle and risk-free rate, a risk-aversion λ ≤ 0
makes the max-utility allocation fail with `InvalidParameterError` with the
solver never consulted, while for λ > 0 the operation is exactly the solve —
no rejection occurs. -/
theorem c5_risk_aversion_guard (solve : ℚ → ℚ → Except AllocError WeightsDict)
    (lam rf : ℚ) :
    (lam ≤ 0 →
      get_max_utility_allocation solve lam rf = Except.error AllocError.invalidParameter) ∧
    (0 < lam → get_max_utility_allocation solve lam rf = solve lam rf) := by
  constructor
  · intro h
    simp [get_max_utility_allocation, h]
  · intro h
    simp [get_max_utility_allocation, not_le.mpr h]

/-- Witness for C5 at λ = −1 (rejected) and λ = 1 (solved). -/
theorem c5_risk_aversion_guard_witness :
    get_max_utility_allocation (fun _ _ => Except.ok ([] : WeightsDict)) (-1) (3/100) =
      Except.error AllocError.invalidParameter ∧
    get_max_utility_allocation (fun _ _ => Except.ok ([] : WeightsDict)) 1 (3/100) =
      Except.ok ([] : WeightsDict) :=
  ⟨(c5_risk_aversion_guard _ _ _).1 (by norm_num),
   (c5_risk_aversion_guard _ _ _).2 (by norm_num)⟩

/-- C9: the allocation operation is deterministic — the repository code
around the (deterministic) estimation/solver library calls introduces no
randomness or hidden state, so two calls of `get_max_sharpe_allocation` with
identical price table and risk-free rate return identical results. -/
theorem c9_allocation_deterministic (solve : PriceFrame → ℚ → Except PyExc WeightsDict)
    (p1 p2 : PriceFrame) (rf1 rf2 : ℚ) (hp : p1 = p2) (hr : rf1 = rf2) :
    get_max_sharpe_allocation solve p1 rf1 = get_max_sharpe_allocation solve p2 rf2 := by
  subst hp
  subst hr
  rfl

/-- Witness for C9 at a concrete price frame and rate. -/
theorem c9_allocation_deterministic_witness :
    get_max_sharpe_allocation (fun _ _ => Except.ok [("A", (1:ℚ))]) (["A"], [[1], [2]]) (3/100) =
      get_max_sharpe_allocation (fun _ _ => Except.ok [("A", (1:ℚ))]) (["A"], [[1], [2]]) (3/100) :=
  c9_allocation_deterministic _ _ _ _ _ rfl rfl

/-- C2 (code bug): a frontier target whose solve raises the library's
`pypfopt.exceptions.OptimizationError` (an infeasible cvxpy solve) is NOT
skipped — the exception propagates out of the loop and the partial arrays are
discarded, because the `except` clause at optimizer.py line 63 matches the
local `OptimizationError` of line 10, which shadows the pypfopt import of
line 7.  A `ValueError`-signalled infeasible target, by contrast, is skipped
silently exactly as the claim describes. -/
theorem c2_infeasible_propagates :
    frontier_point_loop solve_with_infeasible [1, 2, 3] =
      Except.error PyExc.pypfoptOptimizationError ∧
    frontier_except_matches PyExc.pypfoptOptimizationError = false ∧
    frontier_point_loop
      (fun t => if t = 2 then Except.error PyExc.valueError else solve_with_infeasible t)
      [1, 2, 3] = Except.ok [(1/10, 1/5), (3/20, 3/10)] := by
  refine ⟨?_, rfl, ?_⟩ <;> rfl

/-- C10: the performance metrics depend only on the values
`weights.get(col, 0)` for the columns of the price table — an asset absent
from the dict contributes weight 0 and a dict key that is not a column is
ignored (optimizer.py line 138). -/
theorem c10_weights_lookup_semantics (cols : List Ticker) (mu : List ℚ)
    (S : List (List ℚ)) (w1 w2 : WeightsDict)
    (h : ∀ c ∈ cols, (w1.lookup c).getD 0 = (w2.lookup c).getD 0) :
    weights_array cols w1 = weights_array cols w2 ∧
    portfolio_return cols mu w1 = portfolio_return cols mu w2 ∧
    portfolio_variance cols S w1 = portfolio_variance cols S w2 ∧
    ∀ rf r v s, get_portfolio_performance cols mu S w1 rf r v s ↔
      get_portfolio_performance cols mu S w2 rf r v s := by
  have harr : weights_array cols w1 = weights_array cols w2 := by
    unfold weights_array
    exact List.map_congr_left h
  refine ⟨harr, ?_, ?_, ?_⟩
  · unfold portfolio_return
    rw [harr]
  · unfold portfolio_variance
    rw [harr]
  · intro rf r v s
    unfold get_portfolio_performance portfolio_return portfolio_variance
    rw [harr]

/-- Witness for C10: an extra key `"Z"` outside the columns is ignored and
the absent column `"B"` defaults to weight 0 on both sides. -/
theorem c10_weights_lookup_semantics_witness :
    weights_array ["A", "B"] [("A", (1:ℚ)), ("Z", 5)] =
      weights_array ["A", "B"] [("A", (1:ℚ))] :=
  (c10_weights_lookup_semantics ["A", "B"] [] [] _ _ (by decide)).1

/-- Round-half-to-even lands within 1/2 of its argument. -/
lemma round_half_even_err (q : ℚ) : |(round_half_even q : ℚ) - q| ≤ 1/2 := by
  have key : (⌊q⌋ : ℚ) + Int.fract q = q := Int.floor_add_fract q
  have h0 : (0:ℚ) ≤ Int.fract q := Int.fract_nonneg q
  have h1 : Int.fract q < 1 := Int.fract_lt_one q
  unfold round_half_even
  split_ifs with hc1 hc2 hc3 <;> rw [abs_le] <;> constructor <;> push_cast <;> linarith

/-- `np.round(·, 5)` lands within half of the last kept decimal place. -/
lemma np_round5_err (v : ℚ) : |np_round5 v - v| ≤ 1/200000 := by
  have h := round_half_even_err (v * 100000)
  unfold np_round5
  rw [show (round_half_even (v * 100000) : ℚ) / 100000 - v =
        ((round_half_even (v * 100000) : ℚ) - v * 100000) / 100000 by ring,
      abs_div]
  rw [show |(100000:ℚ)| = 100000 by norm_num]
  rw [div_le_iff₀ (by norm_num : (0:ℚ) < 100000)]
  linarith

/-- Round-half-to-even is the identity on integers. -/
lemma round_half_even_intCast (n : ℤ) : round_half_even ((n : ℚ)) = n := by
  unfold round_half_even
  rw [Int.fract_intCast, if_pos (by norm_num : (0:ℚ) < 1/2)]
  exact Int.floor_intCast n

/-- Evaluate `np.round(·, 5)` when the scaled value is an integer. -/
lemma np_round5_eval (v : ℚ) (n : ℤ) (h : v * 100000 = (n : ℚ)) :
    np_round5 v = (n : ℚ) / 100000 := by
  rw [np_round5, h, round_half_even_intCast]

lemma np_round5_zero : np_round5 0 = 0 := by
  rw [np_round5_eval 0 0 (by norm_num)]
  norm_num

/-- The weight each input entry contributes to the post-processed sum:
its cleaned value if that survives the `> 0.0001` filter, else nothing. -/
lemma max_sharpe_cleaned_cons (k : Ticker) (v : ℚ) (rest : WeightsDict) :
    weights_sum (max_sharpe_cleaned ((k, v) :: rest)) =
      (if 1/10000 < np_round5 (cutoff_small v) then np_round5 (cutoff_small v) else 0) +
      weights_sum (max_sharpe_cleaned rest) := by
  unfold max_sharpe_cleaned clean_weights
  rw [List.map_cons]
  by_cases hc : (1:ℚ)/10000 < np_round5 (cutoff_small v)
  · rw [List.filter_cons_of_pos (by simpa using hc), if_pos hc]
    simp [weights_sum]
  · rw [List.filter_cons_of_neg (by simpa using hc), if_neg hc, zero_add]

/-- Entry-wise bound: for a non-negative raw weight `v`, the contribution of
its entry to the post-processed sum is within `[v - 21/200000, v + 1/200000]`
(a dropped entry loses at most cutoff + half a rounding step; a kept entry
moves by at most half a rounding step). -/
lemma cleaned_entry_bound (v : ℚ) (hv : 0 ≤ v) :
    v - 21/200000 ≤
      (if 1/10000 < np_round5 (cutoff_small v) then np_round5 (cutoff_small v) else 0) ∧
    (if 1/10000 < np_round5 (cutoff_small v) then np_round5 (cutoff_small v) else 0) ≤
      v + 1/200000 := by
  by_cases hsmall : |v| < 1/10000
  · have hv0 : v < 1/10000 := lt_of_le_of_lt (le_abs_self v) hsmall
    have hz : np_round5 (cutoff_small v) = 0 := by
      rw [cutoff_small, if_pos hsmall]
      exact np_round5_zero
    rw [hz, if_neg (by norm_num : ¬((1:ℚ)/10000 < 0))]
    constructor <;> linarith
  · have hcs : cutoff_small v = v := by rw [cutoff_small, if_neg hsmall]
    have herr := np_round5_err v
    rw [abs_le] at herr
    rw [hcs]
    by_cases hkeep : (1:ℚ)/10000 < np_round5 v
    · rw [if_pos hkeep]
      constructor <;> linarith
    · rw [if_neg hkeep]
      push_neg at hkeep
      constructor <;> linarith

/-- Summed bound over a whole raw weight dict with non-negative entries. -/
lemma cleaned_sum_bound (raw : WeightsDict) (hnn : ∀ kv ∈ raw, 0 ≤ kv.2) :
    weights_sum raw - raw.length * (21/200000) ≤ weights_sum (max_sharpe_cleaned raw) ∧
    weights_sum (max_sharpe_cleaned raw) ≤ weights_sum raw + raw.length * (1/200000) := by
  induction raw with
  | nil => simp [weights_sum, max_sharpe_cleaned, clean_weights]
  | cons kv rest ih =>
    obtain ⟨k, v⟩ := kv
    have hv : 0 ≤ v := hnn (k, v) (List.mem_cons_self _ _)
    have hrest := ih (fun kv2 h2 => hnn kv2 (List.mem_cons_of_mem _ h2))
    have hhead := cleaned_entry_bound v hv
    rw [max_sharpe_cleaned_cons]
    have hsum : weights_sum ((k, v) :: rest) = v + weights_sum rest := by
      simp [weights_sum]
    rw [hsum]
    push_cast [List.length_cons]
    constructor <;> linarith [hhead.1, hhead.2, hrest.1, hrest.2]

/-- Two entries of an association list with `Nodup` keys and the same key
hold the same value. -/
lemma key_unique {l : WeightsDict} (h : (l.map Prod.fst).Nodup) {k : Ticker}
    {a b : ℚ} (ha : (k, a) ∈ l) (hb : (k, b) ∈ l) : a = b := by
  induction l with
  | nil => cases ha
  | cons kv rest ih =>
    rw [List.map_cons, List.nodup_cons] at h
    rcases List.mem_cons.mp ha with ha1 | ha1 <;> rcases List.mem_cons.mp hb with hb1 | hb1
    · rw [← ha1] at hb1
      exact ((Prod.mk.injEq _ _ _ _).mp hb1.symm).2
    · rw [← ha1] at h
      have h2 : ∀ x : ℚ, (k, x) ∉ rest := by simpa using h.1
      exact absurd hb1 (h2 b)
    · rw [← hb1] at h
      have h2 : ∀ x : ℚ, (k, x) ∉ rest := by simpa using h.1
      exact absurd ha1 (h2 a)
    · exact ih h.2 ha1 hb1

/-- C1 (amended): every weight vector returned by `get_max_sharpe_allocation`
has strictly positive entries (each above the 1e-4 filter threshold), but its
sum is NOT guaranteed to be within 1e-6 of 1: since sub-threshold entries are
dropped without renormalization, the sum of a vector cleaned from an exact
simplex point is only guaranteed to lie within
`[1 - n·(cutoff + rounding step/2), 1 + n·(rounding step/2)]`
= `[1 - n·21/200000, 1 + n·1/200000]` for `n` assets. -/
theorem c1_weight_sum_amended (raw : WeightsDict) :
    (∀ kv ∈ max_sharpe_cleaned raw, (1:ℚ)/10000 < kv.2) ∧
    ((∀ kv ∈ raw, 0 ≤ kv.2) → weights_sum raw = 1 →
      1 - raw.length * (21/200000) ≤ weights_sum (max_sharpe_cleaned raw) ∧
      weights_sum (max_sharpe_cleaned raw) ≤ 1 + raw.length * (1/200000)) := by
  constructor
  · intro kv hkv
    exact of_decide_eq_true (List.mem_filter.mp hkv).2
  · intro hnn hsum
    have h := cleaned_sum_bound raw hnn
    rw [hsum] at h
    exact h

/-- Counterexample to C1 as stated: the raw solver weights
`{A: 0.00005, B: 0.99995}` are a valid simplex point (non-negative, summing
to exactly 1), yet the returned dict after cleaning and filtering sums to
0.99995 — off from 1 by 5e-5, far beyond the 1e-6 tolerance. -/
theorem c1_weight_sum_counterexample :
    (∀ kv ∈ [("A", (1:ℚ)/20000), ("B", (19999:ℚ)/20000)], 0 ≤ kv.2) ∧
    weights_sum [("A", (1:ℚ)/20000), ("B", (19999:ℚ)/20000)] = 1 ∧
    weights_sum (max_sharpe_cleaned [("A", (1:ℚ)/20000), ("B", (19999:ℚ)/20000)]) =
      19999/20000 ∧
    ¬ |weights_sum (max_sharpe_cleaned [("A", (1:ℚ)/20000), ("B", (19999:ℚ)/20000)]) - 1|
        ≤ 1/1000000 := by
  have hA : np_round5 (cutoff_small ((1:ℚ)/20000)) = 0 := by
    rw [cutoff_small, if_pos (by rw [abs_of_nonneg (by norm_num : (0:ℚ) ≤ 1/20000)]; norm_num)]
    exact np_round5_zero
  have hB : np_round5 (cutoff_small ((19999:ℚ)/20000)) = 19999/20000 := by
    rw [cutoff_small,
      if_neg (by rw [abs_of_nonneg (by norm_num : (0:ℚ) ≤ 19999/20000)]; norm_num)]
    rw [np_round5_eval _ 99995 (by norm_num)]
    norm_num
  have hnil : weights_sum (max_sharpe_cleaned []) = 0 := by
    simp [max_sharpe_cleaned, clean_weights, weights_sum]
  have hsum : weights_sum (max_sharpe_cleaned [("A", (1:ℚ)/20000), ("B", (19999:ℚ)/20000)]) =
      19999/20000 := by
    rw [max_sharpe_cleaned_cons, max_sharpe_cleaned_cons, hA, hB,
      if_neg (by norm_num : ¬((1:ℚ)/10000 < 0)),
      if_pos (by norm_num : (1:ℚ)/10000 < 19999/20000), hnil]
    ring
  refine ⟨by norm_num [List.forall_mem_cons], by norm_num [weights_sum], hsum, ?_⟩
  rw [hsum, show (19999:ℚ)/20000 - 1 = -(1/20000) by norm_num, abs_neg,
    abs_of_nonneg (by norm_num : (0:ℚ) ≤ 1/20000)]
  norm_num

/-- Witness for the amended C1 at the simplex point `{A: 1/2, B: 1/2}`. -/
theorem c1_weight_sum_witness :
    (1:ℚ) - (List.length [("A", (1:ℚ)/2), ("B", (1:ℚ)/2)]) * (21/200000) ≤
      weights_sum (max_sharpe_cleaned [("A", (1:ℚ)/2), ("B", (1:ℚ)/2)]) ∧
    weights_sum (max_sharpe_cleaned [("A", (1:ℚ)/2), ("B", (1:ℚ)/2)]) ≤
      1 + (List.length [("A", (1:ℚ)/2), ("B", (1:ℚ)/2)]) * (1/200000) :=
  (c1_weight_sum_amended _).2 (by norm_num [List.forall_mem_cons])
    (by norm_num [weights_sum])

/-- C3 (amended): cleaning first zeroes every entry of absolute value
strictly below 1e-4 and rounds the rest to 5 decimal places, and the
comprehension at optimizer.py line 110 then REMOVES every entry not strictly
above 1e-4 from the returned dict — so an entry exactly at the threshold, or
one whose rounded value falls to the threshold, is dropped rather than
returned unchanged; the kept entries are the rounded (not renormalized)
values. -/
theorem c3_cleaning_amended (raw : WeightsDict) (k : Ticker) (v : ℚ)
    (hmem : (k, v) ∈ raw) (hnd : (raw.map Prod.fst).Nodup) :
    ((1:ℚ)/10000 < np_round5 (cutoff_small v) →
      (k, np_round5 (cutoff_small v)) ∈ max_sharpe_cleaned raw) ∧
    (np_round5 (cutoff_small v) ≤ 1/10000 →
      k ∉ (max_sharpe_cleaned raw).map Prod.fst) ∧
    (|v| < 1/10000 → k ∉ (max_sharpe_cleaned raw).map Prod.fst) := by
  have hclean : (k, np_round5 (cutoff_small v)) ∈ clean_weights raw :=
    List.mem_map_of_mem (fun kv => (kv.1, np_round5 (cutoff_small kv.2))) hmem
  have habsent : np_round5 (cutoff_small v) ≤ 1/10000 →
      k ∉ (max_sharpe_cleaned raw).map Prod.fst := by
    intro hle hk
    rcases List.mem_map.mp hk with ⟨kv2, hkv2mem, hkv2fst⟩
    obtain ⟨hmemc, hdec⟩ := List.mem_filter.mp hkv2mem
    rw [clean_weights] at hmemc
    rcases List.mem_map.mp hmemc with ⟨kv0, hkv0mem, hkv0eq⟩
    have hk0 : kv0.1 = k := by
      rw [← hkv2fst, ← hkv0eq]
    have hmem0 : (k, kv0.2) ∈ raw := by
      rw [← hk0]
      simpa using hkv0mem
    have hv0 : kv0.2 = v := key_unique hnd hmem0 hmem
    have hval : kv2.2 = np_round5 (cutoff_small v) := by
      rw [← hkv0eq, ← hv0]
    have hgt := of_decide_eq_true hdec
    rw [hval] at hgt
    exact absurd hgt (not_lt.mpr hle)
  refine ⟨?_, habsent, ?_⟩
  · intro hgt
    exact List.mem_filter.mpr ⟨hclean, decide_eq_true hgt⟩
  · intro habs
    apply habsent
    rw [cutoff_small, if_pos habs, np_round5_zero]
    norm_num

/-- Counterexample to C3 as stated: with raw solver weights
`{A: 0.0001, B: 0.9999}`, the entry `A` sits exactly AT the threshold (it is
not strictly below 0.0001), yet the returned dict does not contain it — the
comprehension keeps only entries strictly above the threshold, so `A` is
removed rather than returned unchanged. -/
theorem c3_cleaning_counterexample :
    ¬ ((1:ℚ)/10000 < 1/10000) ∧
    max_sharpe_cleaned [("A", (1:ℚ)/10000), ("B", (9999:ℚ)/10000)] =
      [("B", (9999:ℚ)/10000)] ∧
    "A" ∉ (max_sharpe_cleaned [("A", (1:ℚ)/10000), ("B", (9999:ℚ)/10000)]).map Prod.fst := by
  have hA2 : np_round5 (cutoff_small ((1:ℚ)/10000)) = 1/10000 := by
    rw [cutoff_small,
      if_neg (by rw [abs_of_nonneg (by norm_num : (0:ℚ) ≤ 1/10000)]; norm_num)]
    rw [np_round5_eval _ 10 (by norm_num)]
    norm_num
  have hB2 : np_round5 (cutoff_small ((9999:ℚ)/10000)) = 9999/10000 := by
    rw [cutoff_small,
      if_neg (by rw [abs_of_nonneg (by norm_num : (0:ℚ) ≤ 9999/10000)]; norm_num)]
    rw [np_round5_eval _ 99990 (by norm_num)]
    norm_num
  have hout : max_sharpe_cleaned [("A", (1:ℚ)/10000), ("B", (9999:ℚ)/10000)] =
      [("B", (9999:ℚ)/10000)] := by
    unfold max_sharpe_cleaned clean_weights
    simp only [List.map_cons, List.map_nil]
    rw [hA2, hB2]
    rw [List.filter_cons_of_neg (by simp),
      List.filter_cons_of_pos (by simpa using (by norm_num : (1:ℚ)/10000 < 9999/10000)),
      List.filter_nil]
  refine ⟨by norm_num, hout, ?_⟩
  rw [hout]
  simp

/-- Witness for the amended C3: a kept entry is returned as its cleaned
(rounded) value. -/
theorem c3_cleaning_amended_witness :
    ("B", np_round5 (cutoff_small ((1:ℚ)/2))) ∈ max_sharpe_cleaned [("B", (1:ℚ)/2)] := by
  have hD : np_round5 (cutoff_small ((1:ℚ)/2)) = 1/2 := by
    rw [cutoff_small, if_neg (by rw [abs_of_nonneg (by norm_num : (0:ℚ) ≤ 1/2)]; norm_num)]
    rw [np_round5_eval _ 50000 (by norm_num)]
    norm_num
  exact (c3_cleaning_amended [("B", (1:ℚ)/2)] "B" (1/2) (by simp) (by simp)).1
    (by rw [hD]; norm_num)

/-- `dotQ` of two arrays built from index functions is the index sum. -/
lemma dotQ_ofFn (n : ℕ) (f g : Fin n → ℚ) :
    dotQ (List.ofFn f) (List.ofFn g) = ∑ i, f i * g i := by
  unfold dotQ
  have hzip : List.zipWith (· * ·) (List.ofFn f) (List.ofFn g) =
      List.ofFn (fun i => f i * g i) := by
    apply List.ext_getElem
    · simp
    · intro i h1 h2
      simp
  rw [hzip, List.sum_ofFn]

/-- The weights array is the array of per-column lookups. -/
lemma weights_array_ofFn (cols : List Ticker) (w : WeightsDict) :
    weights_array cols w =
      List.ofFn (fun i : Fin cols.length => (w.lookup (cols.get i)).getD 0) := by
  unfold weights_array
  apply List.ext_getElem
  · simp
  · intro i h1 h2
    simp

/-- The code's chained `np.dot` computes the mathematical return wᵀμ. -/
lemma portfolio_return_ofFn (cols : List Ticker) (muF : Fin cols.length → ℚ)
    (w : WeightsDict) :
    portfolio_return cols (List.ofFn muF) w =
      ∑ i, (w.lookup (cols.get i)).getD 0 * muF i := by
  unfold portfolio_return
  rw [weights_array_ofFn, dotQ_ofFn]

/-- The code's chained `np.dot` computes the mathematical quadratic form
wᵀSw. -/
lemma portfolio_variance_ofFn (cols : List Ticker)
    (SF : Fin cols.length → Fin cols.length → ℚ) (w : WeightsDict) :
    portfolio_variance cols (List.ofFn fun i => List.ofFn (SF i)) w =
      ∑ i, ∑ j, (w.lookup (cols.get i)).getD 0 * SF i j * (w.lookup (cols.get j)).getD 0 := by
  unfold portfolio_variance matVec
  rw [weights_array_ofFn, List.map_ofFn]
  have hcomp : ((fun row =>
        dotQ row (List.ofFn fun i : Fin cols.length => (w.lookup (cols.get i)).getD 0)) ∘
        fun i => List.ofFn (SF i)) =
      fun i => ∑ j, SF i j * (w.lookup (cols.get j)).getD 0 := by
    funext i
    simp only [Function.comp_apply]
    rw [dotQ_ofFn]
  rw [hcomp, dotQ_ofFn]
  apply Finset.sum_congr rfl
  intro i _
  rw [Finset.mul_sum]
  apply Finset.sum_congr rfl
  intro j _
  ring

/-- The single-asset, zero-covariance example: its variance is 0. -/
lemma variance_zero_example : portfolio_variance ["A"] [[0]] [("A", (1:ℚ))] = 0 := by
  norm_num [portfolio_variance, weights_array, matVec, dotQ, List.lookup]

/-- The single-asset example's return is 0.10. -/
lemma return_example : portfolio_return ["A"] [(1:ℚ)/10] [("A", (1:ℚ))] = 1/10 := by
  norm_num [portfolio_return, weights_array, dotQ, List.lookup]

/-- On the zero-covariance example, `get_portfolio_performance` holds exactly
of return 0.10, volatility 0, and an undefined (non-finite) Sharpe ratio. -/
lemma performance_zero_vol_example :
    get_portfolio_performance ["A"] [(1:ℚ)/10] [[0]] [("A", (1:ℚ))] (3/100)
      (((1:ℚ)/10 : ℝ)) 0 none := by
  refine ⟨?_, ?_, fun _ => rfl, fun hne => absurd rfl hne⟩
  · rw [return_example]
    norm_num
  · rw [variance_zero_example]
    simp

/-- C6 (amended): on every zero-volatility input the function still computes
the return and a volatility of 0, but the Sharpe division at optimizer.py
line 143 is NOT guarded: with a zero divisor no finite Sharpe ratio is
produced (NumPy emits inf/nan, modeled `none`), so the returned triple is not
a defined `PerformanceMetrics`. -/
theorem c6_zero_volatility_amended (cols : List Ticker) (mu : List ℚ)
    (S : List (List ℚ)) (w : WeightsDict) (rf : ℚ) (r v : ℝ) (s : Option ℝ)
    (hrel : get_portfolio_performance cols mu S w rf r v s)
    (hzero : portfolio_variance cols S w = 0) :
    r = (portfolio_return cols mu w : ℝ) ∧ v = 0 ∧ s = none := by
  obtain ⟨hr, hv, hz, _⟩ := hrel
  have hv0 : v = 0 := by
    rw [hv, hzero]
    simp
  exact ⟨hr, hv0, hz hv0⟩

/-- Counterexample to C6 as stated: at the concrete zero-volatility input
(single asset, zero covariance, full weight) the code's result has Sharpe
`none` — not any defined value — because the division is unguarded. -/
theorem c6_zero_volatility_counterexample :
    portfolio_variance ["A"] [[0]] [("A", (1:ℚ))] = 0 ∧
    get_portfolio_performance ["A"] [(1:ℚ)/10] [[0]] [("A", (1:ℚ))] (3/100)
      (((1:ℚ)/10 : ℝ)) 0 none ∧
    ¬ get_portfolio_performance ["A"] [(1:ℚ)/10] [[0]] [("A", (1:ℚ))] (3/100)
      (((1:ℚ)/10 : ℝ)) 0 (some 0) := by
  refine ⟨variance_zero_example, performance_zero_vol_example, ?_⟩
  rintro ⟨-, -, hz, -⟩
  have h := hz rfl
  simp at h

/-- Witness for the amended C6 at the concrete zero-volatility input. -/
theorem c6_zero_volatility_witness :
    ((1:ℚ)/10 : ℝ) = (portfolio_return ["A"] [(1:ℚ)/10] [("A", (1:ℚ))] : ℝ) ∧
    (0 : ℝ) = 0 ∧ (none : Option ℝ) = none :=
  c6_zero_volatility_amended ["A"] [(1:ℚ)/10] [[0]] [("A", (1:ℚ))] (3/100) _ _ _
    performance_zero_vol_example variance_zero_example

/-- C7: whenever the portfolio variance is positive, the performance routine
returns exactly the triple
`(wᵀμ, sqrt(wᵀSw), (wᵀμ − r_f)/sqrt(wᵀSw))`, with `w` the per-column lookup
vector; the dot products of the code agree with the mathematical index
sums. -/
theorem c7_performance_triple (cols : List Ticker) (muF : Fin cols.length → ℚ)
    (SF : Fin cols.length → Fin cols.length → ℚ) (w : WeightsDict) (rf : ℚ)
    (r v : ℝ) (s : Option ℝ)
    (hpos : 0 < portfolio_variance cols (List.ofFn fun i => List.ofFn (SF i)) w) :
    get_portfolio_performance cols (List.ofFn muF) (List.ofFn fun i => List.ofFn (SF i))
        w rf r v s ↔
      (r = ((∑ i, (w.lookup (cols.get i)).getD 0 * muF i : ℚ) : ℝ) ∧
       v = Real.sqrt
         ((∑ i, ∑ j, (w.lookup (cols.get i)).getD 0 * SF i j *
            (w.lookup (cols.get j)).getD 0 : ℚ) : ℝ) ∧
       s = some ((r - (rf : ℝ)) / v)) := by
  have hvpos : (0:ℝ) < Real.sqrt
      ((portfolio_variance cols (List.ofFn fun i => List.ofFn (SF i)) w : ℚ) : ℝ) := by
    apply Real.sqrt_pos.mpr
    exact_mod_cast hpos
  unfold get_portfolio_performance
  rw [portfolio_return_ofFn, portfolio_variance_ofFn] at *
  constructor
  · rintro ⟨hr, hv, _, hnz⟩
    have hvne : v ≠ 0 := by
      rw [hv]
      exact ne_of_gt hvpos
    exact ⟨hr, hv, hnz hvne⟩
  · rintro ⟨hr, hv, hs⟩
    have hvne : v ≠ 0 := by
      rw [hv]
      exact ne_of_gt hvpos
    exact ⟨hr, hv, fun h0 => absurd h0 hvne, fun _ => hs⟩

/-- Witness for C7 on a one-asset example with unit variance. -/
theorem c7_performance_triple_witness :
    get_portfolio_performance ["A"] (List.ofFn fun _ : Fin 1 => (1:ℚ)/10)
      (List.ofFn fun _ : Fin 1 => List.ofFn fun _ : Fin 1 => (1:ℚ))
      [("A", (1:ℚ))] (3/100)
      ((∑ i : Fin 1, (([("A", (1:ℚ))]).lookup ((["A"]:List Ticker).get i)).getD 0 *
          ((1:ℚ)/10) : ℚ) : ℝ)
      (Real.sqrt ((∑ i : Fin 1, ∑ j : Fin 1,
          (([("A", (1:ℚ))]).lookup ((["A"]:List Ticker).get i)).getD 0 * (1:ℚ) *
          (([("A", (1:ℚ))]).lookup ((["A"]:List Ticker).get j)).getD 0 : ℚ) : ℝ))
      (some ((((∑ i : Fin 1, (([("A", (1:ℚ))]).lookup ((["A"]:List Ticker).get i)).getD 0 *
            ((1:ℚ)/10) : ℚ) : ℝ) - ((3/100 : ℚ) : ℝ)) /
        Real.sqrt ((∑ i : Fin 1, ∑ j : Fin 1,
          (([("A", (1:ℚ))]).lookup ((["A"]:List Ticker).get i)).getD 0 * (1:ℚ) *
          (([("A", (1:ℚ))]).lookup ((["A"]:List Ticker).get j)).getD 0 : ℚ) : ℝ))) := by
  have hpos : 0 < portfolio_variance ["A"]
      (List.ofFn fun _ : Fin 1 => List.ofFn fun _ : Fin 1 => (1:ℚ)) [("A", (1:ℚ))] := by
    norm_num [portfolio_variance, weights_array, matVec, dotQ, List.lookup, List.ofFn_succ]
  exact (c7_performance_triple ["A"] (fun _ => (1:ℚ)/10) (fun _ _ => (1:ℚ))
    [("A", (1:ℚ))] (3/100) _ _ _ hpos).mpr ⟨rfl, rfl, rfl⟩

/-- C8: the max-Sharpe portfolio's Sharpe ratio dominates that of every
feasible portfolio — in particular every successful frontier solve (a
feasible simplex point) and every random sample (a normalized non-negative
draw, which lies in the simplex). -/
theorem c8_max_sharpe_dominates (n : ℕ) (mu : Fin n → ℚ) (S : Fin n → Fin n → ℚ)
    (rf : ℚ) (wstar : Fin n → ℚ) (hstar : is_max_sharpe n mu S rf wstar) :
    (∀ w, feasible n w →
      sharpe_le rf (dot_fin n w mu) (quad_fin n S w)
        (dot_fin n wstar mu) (quad_fin n S wstar)) ∧
    (∀ x : Fin n → ℚ, (∀ i, 0 ≤ x i) → 0 < ∑ i, x i →
      sharpe_le rf (dot_fin n (normalize_draw n x) mu)
        (quad_fin n S (normalize_draw n x))
        (dot_fin n wstar mu) (quad_fin n S wstar)) := by
  refine ⟨hstar.2, ?_⟩
  intro x hx hsum
  apply hstar.2
  constructor
  · intro i
    exact div_nonneg (hx i) (le_of_lt hsum)
  · unfold normalize_draw
    rw [← Finset.sum_div]
    exact div_self (ne_of_gt hsum)

/-- Witness for C8 on a one-asset market, where the only feasible portfolio
is the max-Sharpe portfolio itself. -/
theorem c8_max_sharpe_dominates_witness :
    sharpe_le (3/100)
      (dot_fin 1 (normalize_draw 1 (fun _ => 2)) (fun _ => (1:ℚ)/10))
      (quad_fin 1 (fun _ _ => (1:ℚ)/25) (normalize_draw 1 (fun _ => 2)))
      (dot_fin 1 (fun _ => (1:ℚ)) (fun _ => (1:ℚ)/10))
      (quad_fin 1 (fun _ _ => (1:ℚ)/25) (fun _ => (1:ℚ))) := by
  have hstar : is_max_sharpe 1 (fun _ => (1:ℚ)/10) (fun _ _ => (1:ℚ)/25) (3/100)
      (fun _ => (1:ℚ)) := by
    constructor
    · exact ⟨fun i => by norm_num, by simp⟩
    · intro w hw
      have hw0 : w 0 = 1 := by simpa [Fin.sum_univ_one] using hw.2
      have h1 : dot_fin 1 w (fun _ => (1:ℚ)/10) =
          dot_fin 1 (fun _ => (1:ℚ)) (fun _ => (1:ℚ)/10) := by
        simp [dot_fin, Fin.sum_univ_one, hw0]
      have h2 : quad_fin 1 (fun _ _ => (1:ℚ)/25) w =
          quad_fin 1 (fun _ _ => (1:ℚ)/25) (fun _ => (1:ℚ)) := by
        simp [quad_fin, Fin.sum_univ_one, hw0]
      rw [h1, h2]
      exact le_refl _
  exact (c8_max_sharpe_dominates 1 (fun _ => (1:ℚ)/10) (fun _ _ => (1:ℚ)/25) (3/100)
    (fun _ => (1:ℚ)) hstar).2 (fun _ => 2) (fun _ => by norm_num)
    (by simp [Fin.sum_univ_one])
